import Mathlib

/-!
Verification development for the fourier-dnn repository.

The Python sources under `fourier_dnn/` are shallowly embedded below:
pure computations become Lean functions, the shared mutable `wandb.config`
becomes explicit state passing of a `Config` value, calls into the external
deep-learning framework (model fitting, PSNR evaluation) become oracle
parameters, and Python runtime failures become `Except PyError` results.
The Fourier feature mapping layers live in `ffm.py`, which is not part of
the provided sources (only the test file `ffm_tests.py` is); they are
modelled from the specification, as marked in their doc comments.
-/

namespace FourierDnn

/-- Python runtime errors that the embedded code can raise. -/
inductive PyError where
  | typeError (msg : String)
  | zeroDivisionError
  | indexError
  deriving DecidableEq, Repr

/-- Dynamically typed Python values used as keyword arguments. -/
inductive PyValue where
  | int (n : ℤ)
  | bool (b : Bool)
  deriving DecidableEq, Repr

/-- Truthiness of a Python value, used when a keyword argument is bound to
a boolean parameter. -/
def PyValue.truthy : PyValue → Bool
  | .bool b => b
  | .int n => n != 0

/-- The shared mutable wandb config of `2d_image_regression.py`.  In the
embedding it is passed and returned explicitly by every function that reads
or updates it. -/
structure Config where
  num_layers : ℕ
  num_units : ℕ
  num_units_final : ℕ
  gaussian : Bool
  staddev : ℤ
  num_units_FFM : ℕ
  learning_rate : ℚ
  epochs : ℕ
  beta_1 : ℚ
  beta_2 : ℚ
  epsilon : ℚ
  deriving DecidableEq, Repr

/-- The hyperparameter defaults dictionary of `2d_image_regression.py`
(lines 21-33), with which wandb is initialized. -/
def hyperparameter_defaults : Config :=
  { num_layers := 10
    num_units := 128
    num_units_final := 3
    gaussian := false
    staddev := 5
    num_units_FFM := 128
    learning_rate := 1 / 1000
    epochs := 100
    beta_1 := 9 / 10
    beta_2 := 999 / 1000
    epsilon := 1 / 100000000 }

/-- The config fields that no function of `2d_image_regression.py` ever
updates (every field except `gaussian`, updated by `get_model`, and
`epochs`, updated by `train_model`). -/
def Config.core (c : Config) : ℕ × ℕ × ℕ × ℤ × ℕ × ℚ × ℚ × ℚ × ℚ :=
  (c.num_layers, c.num_units, c.num_units_final, c.staddev, c.num_units_FFM,
   c.learning_rate, c.beta_1, c.beta_2, c.epsilon)

/-- Modelled from the spec: the `FourierMLP` class of `ffm_mlp.py` is absent
from the provided sources; per the spec, model assembly is glue over the
external framework, so the model is represented by its constructor
arguments, in the order of the constructor call in `get_model`. -/
structure FourierMLP where
  num_layers : ℕ
  num_units : ℕ
  num_units_final : ℕ
  gaussian : Bool
  staddev : ℤ
  num_units_FFM : ℕ
  deriving DecidableEq, Repr

/-- A FourierMLP after `model.compile`: the network together with the Adam
optimizer settings taken from the config.  The loss (mean squared error) and
the metric list are fixed constants of `get_model` and carry no state. -/
structure CompiledModel where
  net : FourierMLP
  learning_rate : ℚ
  beta_1 : ℚ
  beta_2 : ℚ
  epsilon : ℚ
  deriving DecidableEq, Repr

/-- Embedding of `get_model` (`2d_image_regression.py`, lines 39-55): update
the config's `gaussian` field, build a FourierMLP from the config, and
compile it with an Adam optimizer configured from the config. -/
def get_model (gaussian : Bool) (c : Config) : CompiledModel × Config :=
  let c' := { c with gaussian := gaussian }
  ({ net :=
      { num_layers := c'.num_layers
        num_units := c'.num_units
        num_units_final := c'.num_units_final
        gaussian := c'.gaussian
        staddev := c'.staddev
        num_units_FFM := c'.num_units_FFM }
     learning_rate := c'.learning_rate
     beta_1 := c'.beta_1
     beta_2 := c'.beta_2
     epsilon := c'.epsilon }, c')

/-- The keyword parameters accepted by `get_model`'s `def` line: only
`gaussian`.  There is no `staddev` parameter. -/
def get_model_params : List String := ["gaussian"]

/-- Python call semantics for a keyword call of `get_model`: a keyword that
is not among `get_model`'s parameters raises `TypeError`; otherwise the
`gaussian` parameter takes the supplied value, defaulting to `False`. -/
def call_get_model (kwargs : List (String × PyValue)) (c : Config) :
    Except PyError (CompiledModel × Config) :=
  if kwargs.all (fun kv => get_model_params.contains kv.1) then
    Except.ok (get_model (((kwargs.lookup "gaussian").map PyValue.truthy).getD false) c)
  else
    Except.error (PyError.typeError "get_model() got an unexpected keyword argument")

/-- Arguments of one `model.fit` call as issued by `train_model` to the
external framework: the compiled model, the image index selecting the
training and validation data, and the epoch count. -/
structure FitCall where
  model : CompiledModel
  image_index : ℕ
  epochs : ℕ
  deriving DecidableEq, Repr

/-- Embedding of `train_model` (`2d_image_regression.py`, lines 97-108):
update the config's `epochs` field and call `model.fit` on the image's
train/validation data for `config.epochs` epochs.  The fit itself is the
external framework's work and may fail; it is abstracted by the `fit`
oracle. -/
def train_model (fit : CompiledModel → ℕ → ℕ → Except PyError Unit)
    (model : CompiledModel) (image_index : ℕ) (epochs : ℕ) (c : Config) :
    Except PyError (FitCall × Config) :=
  let c' := { c with epochs := epochs }
  (fit model image_index c'.epochs).map
    (fun _ => ({ model := model, image_index := image_index, epochs := c'.epochs }, c'))

/-- The filename stem `OUTPUT_IMG_PREFIX` of `2d_image_regression.py`. -/
def output_img_stem : String := "output_g"

/-- One visual output action of `test_model`: either a matplotlib window is
shown for the image's train or test prediction, or the figure is saved to a
file. -/
inductive OutputAction where
  | display (image_index : ℕ) ( is_test : Bool)
  | savefig (filename : String)
  deriving DecidableEq, Repr

/-- Everything `test_model` produces: the returned pair of PSNR values, the
metric dictionary passed to `wandb.log`, and the visual output actions. -/
structure TestModelResult where
  psnr_train : ℚ
  psnr_test : ℚ
  logged : List (String × ℚ)
  actions : List OutputAction
  deriving DecidableEq, Repr

/-- Embedding of `test_model` (`2d_image_regression.py`, lines 58-95).  The
external framework's evaluation of the model on the image's train and test
splits (`tf.image.psnr` of target against prediction) is abstracted by the
`ev` oracle returning the pair (train PSNR, test PSNR).  The flags select
the visual output actions exactly as the source's branches do; the
`wandb.log` call and the return statement are unconditional. -/
def test_model (ev : CompiledModel → ℕ → ℚ × ℚ) (model : CompiledModel)
    (image_index : ℕ) (show_output : Bool) (save_output : Bool) : TestModelResult :=
  let p := ev model image_index
  { psnr_train := p.1
    psnr_test := p.2
    logged := [("Train PSNR Value", p.1), ("Test PSNR Value", p.2)]
    actions :=
      if show_output then
        (if save_output then
          [OutputAction.savefig (output_img_stem ++ "_" ++ toString image_index ++ "_train.png")]
         else [OutputAction.display image_index false]) ++
        (if save_output then
          [OutputAction.savefig (output_img_stem ++ "_" ++ toString image_index ++ "_test.png")]
         else [OutputAction.display image_index true])
      else [] }

/-- Python's `range(a, b)` as a list of integers. -/
def int_range (a b : ℤ) : List ℤ :=
  (List.range (b - a).toNat).map (fun k => a + k)

/-- Arithmetic mean of a list of rationals (`np.mean` along the last axis,
applied to one row). -/
def mean (l : List ℚ) : ℚ := l.sum / (l.length : ℚ)

/-- Tail of the first-occurrence argmax scan: `i` is the index of the next
element, `bi` the best index so far, `bv` the best value so far. -/
def argmax_aux : List ℚ → ℕ → ℕ → ℚ → ℕ
  | [], _, bi, _ => bi
  | v :: rest, i, bi, bv =>
      if bv < v then argmax_aux rest (i + 1) i v else argmax_aux rest (i + 1) bi bv

/-- Index of the first maximum of a list (`np.argmax`); `0` on an empty
list, matching `np.argmax` applied to the nan mean of an empty array. -/
def argmax_idx : List ℚ → ℕ
  | [] => 0
  | v :: rest => argmax_aux rest 1 0 v

/-- One inner-loop step of `find_best_stddev` (lines 119-122): the keyword
call `get_model(staddev=stddev, gaussian=True)`, then `train_model` on image
`i`, then `test_model` with `show_output=False`, yielding the test PSNR. -/
def sweep_inner_step (fit : CompiledModel → ℕ → ℕ → Except PyError Unit)
    (ev : CompiledModel → ℕ → ℚ × ℚ) (stddev : ℤ) (i : ℕ) (epochs : ℕ)
    (c : Config) : Except PyError (ℚ × Config) := do
  let (model, c₁) ← call_get_model
      [("staddev", PyValue.int stddev), ("gaussian", PyValue.bool true)] c
  let (_fc, c₂) ← train_model fit model i epochs c₁
  let r := test_model ev model i false false
  pure (r.psnr_test, c₂)

/-- One outer-loop iteration of `find_best_stddev` (lines 118-124): collect
the per-image scores for one candidate standard deviation, then print their
average; `sum(image_scores)/len(image_scores)` raises `ZeroDivisionError`
when the image list is empty. -/
def sweep_candidate (fit : CompiledModel → ℕ → ℕ → Except PyError Unit)
    (ev : CompiledModel → ℕ → ℚ × ℚ) (stddev : ℤ) (images : ℕ) (epochs : ℕ)
    (c : Config) : Except PyError (List ℚ × Config) := do
  let (image_scores, c') ← (List.range images).foldlM
      (fun (acc : List ℚ × Config) i => do
        let (s, c₂) ← sweep_inner_step fit ev stddev i epochs acc.2
        pure (acc.1 ++ [s], c₂))
      (([] : List ℚ), c)
  if image_scores.isEmpty then Except.error PyError.zeroDivisionError
  else pure (image_scores, c')

/-- Embedding of `find_best_stddev` (`2d_image_regression.py`, lines
110-127): for each candidate in `range(start, end+1)` collect per-image test
PSNR scores, then return `list(range(start, end+1))[np.argmax(np.mean(scores,
axis=-1))]`; indexing past the end of the candidate list raises
`IndexError`. -/
def find_best_stddev (fit : CompiledModel → ℕ → ℕ → Except PyError Unit)
    (ev : CompiledModel → ℕ → ℚ × ℚ) (start end_ : ℤ) (epochs images : ℕ)
    (c : Config) : Except PyError (ℤ × Config) := do
  let (scores, c') ← (int_range start (end_ + 1)).foldlM
      (fun (acc : List (List ℚ) × Config) stddev => do
        let (image_scores, c₂) ← sweep_candidate fit ev stddev images epochs acc.2
        pure (acc.1 ++ [image_scores], c₂))
      (([] : List (List ℚ)), c)
  match (int_range start (end_ + 1))[argmax_idx (scores.map mean)]? with
  | some v => pure (v, c')
  | none => Except.error PyError.indexError

/-- A concrete evaluation oracle used by closed evaluations: every model
scores (0, 0) on every image. -/
def oracle0 : CompiledModel → ℕ → ℚ × ℚ := fun _ _ => (0, 0)

/-- A concrete fit oracle used by closed evaluations: training always
succeeds. -/
def fit0 : CompiledModel → ℕ → ℕ → Except PyError Unit := fun _ _ _ => Except.ok ()

/-- A concrete compiled model used by closed instances, built from the
default hyperparameters with the Gaussian FFM enabled. -/
def model0 : CompiledModel := (get_model true hyperparameter_defaults).1

/-- A config differing from the defaults only on the two fields that sweep
steps mutate (`gaussian` and `epochs`). -/
def config_alt : Config := { hyperparameter_defaults with gaussian := true, epochs := 3 }

noncomputable section

/-- Modelled from the spec: the Basic Fourier Feature Mapping of `ffm.py`,
which is absent from the provided sources (only its test `test_basic_FFM`
is present).  Given an input batch as a list of rows, each row of width d,
it applies sine and cosine elementwise to 2 pi times the raw input
coordinates and concatenates the two along the feature axis, giving rows of
width 2d. -/
def basicFFM (x : List (List ℝ)) : List (List ℝ) :=
  x.map (fun row =>
    row.map (fun v => Real.sin (2 * Real.pi * v)) ++
    row.map (fun v => Real.cos (2 * Real.pi * v)))

/-- Modelled from the spec: the `BasicFFM` layer object of `ffm.py` carries
no parameters and no learnable state. -/
structure BasicFFM where
  deriving DecidableEq

/-- Calling a `BasicFFM` layer: the output together with the layer as it
stands after the call (the layer holds no state, so it is returned
unchanged). -/
def BasicFFM.call (layer : BasicFFM) (x : List (List ℝ)) :
    List (List ℝ) × BasicFFM :=
  (basicFFM x, layer)

/-- Dot product of an input row with column `k` of the projection matrix
`B` (rows of `B` are paired with the entries of the input row). -/
def dotCol (row : List ℝ) (B : List (List ℝ)) (k : ℕ) : ℝ :=
  ((row.zip B).map (fun p => p.1 * p.2.getD k 0)).sum

/-- Modelled from the spec: the `GaussianFFM` layer of `ffm.py`, absent from
the provided sources (only its test `test_gaussian_FFM` is present).  It is
constructed with `num_units` and `std_dev`; the projection matrix `B` of
shape (d, num_units) is drawn once at construction from a normal
distribution scaled by `std_dev` — that draw is external randomness, so `B`
appears here as a construction-time field. -/
structure GaussianFFM where
  num_units : ℕ
  std_dev : ℝ
  B : List (List ℝ)

/-- Calling a `GaussianFFM` layer: project each input row onto `B` giving
`num_units` values, multiply by 2 pi, and concatenate the sines and cosines
along the feature axis.  The layer holds no mutable state, so it is
returned unchanged. -/
def GaussianFFM.call (layer : GaussianFFM) (x : List (List ℝ)) :
    List (List ℝ) × GaussianFFM :=
  (x.map (fun row =>
    ((List.range layer.num_units).map (fun k => dotCol row layer.B k)).map
      (fun v => Real.sin (2 * Real.pi * v)) ++
    ((List.range layer.num_units).map (fun k => dotCol row layer.B k)).map
      (fun v => Real.cos (2 * Real.pi * v))), layer)

/-- A concrete 2 by 126 projection matrix for the closed instance mirroring
`test_gaussian_FFM`. -/
def B0 : List (List ℝ) := List.replicate 2 (List.replicate 126 0)

/-- A concrete batch of 500 two-dimensional points mirroring the test
inputs of `ffm_tests.py`. -/
def x0 : List (List ℝ) := List.replicate 500 [0, 0]

/-- A concrete Gaussian FFM layer with 126 output units and standard
deviation 2.3, mirroring `test_gaussian_FFM`. -/
def gffm0 : GaussianFFM := { num_units := 126, std_dev := 2.3, B := B0 }

end

/-- Helper: `getD` commutes with `map` below the length of the list. -/
theorem getD_map_of_lt {α β : Type} (f : α → β) (l : List α) (i : ℕ)
    (h : i < l.length) (a : α) (b : β) :
    (l.map f).getD i b = f (l.getD i a) := by
  induction l generalizing i with
  | nil => simp at h
  | cons x xs ih =>
    cases i with
    | zero => rfl
    | succ n => exact ih n (by simpa using h)

/-- Helper: `getD` of an append reads the left list below its length. -/
theorem getD_append_of_lt {α : Type} (l₁ l₂ : List α) (i : ℕ)
    (h : i < l₁.length) (b : α) :
    (l₁ ++ l₂).getD i b = l₁.getD i b := by
  induction l₁ generalizing i with
  | nil => simp at h
  | cons x xs ih =>
    cases i with
    | zero => rfl
    | succ n => exact ih n (by simpa using h)

/-- Helper: `getD` of an append at an offset past the left list reads the
right list. -/
theorem getD_append_right_len {α : Type} (l₁ l₂ : List α) (k : ℕ) (b : α) :
    (l₁ ++ l₂).getD (l₁.length + k) b = l₂.getD k b := by
  induction l₁ with
  | nil => simp
  | cons x xs ih =>
    have : (x :: xs).length + k = (xs.length + k) + 1 := by
      simp [Nat.add_right_comm]
    rw [this]
    exact ih

/-- Helper: `getD` below the length of a list is a member of the list. -/
theorem getD_mem_of_lt {α : Type} (l : List α) (i : ℕ) (h : i < l.length)
    (d : α) : l.getD i d ∈ l := by
  induction l generalizing i with
  | nil => simp at h
  | cons x xs ih =>
    cases i with
    | zero => exact List.mem_cons_self x xs
    | succ n => exact List.mem_cons_of_mem x (ih n (by simpa using h))

/-- Helper: `getD` on `List.range` below the bound returns the index. -/
theorem getD_range_of_lt (n k : ℕ) (h : k < n) (d : ℕ) :
    (List.range n).getD k d = k := by
  induction n generalizing k with
  | zero => omega
  | succ m ih =>
    rw [List.range_succ]
    rcases Nat.lt_or_ge k m with hk | hk
    · rw [getD_append_of_lt _ _ _ (by simpa using hk)]
      exact ih k hk
    · have hkm : k = m := by omega
      subst hkm
      have hlen : (List.range k).length = k := List.length_range k
      calc (List.range k ++ [k]).getD k d
          = (List.range k ++ [k]).getD ((List.range k).length + 0) d := by
            rw [hlen, Nat.add_zero]
        _ = ([k] : List ℕ).getD 0 d := getD_append_right_len _ _ 0 d
        _ = k := rfl

/-- C1: every call of find_best_stddev with start less than or equal to end
and at least one image raises TypeError at the first sweep step, because
get_model does not accept the staddev keyword its caller passes; no such
call completes, so no value is ever returned, contradicting the spec's
description of the sweep's return value.  Shown here at start=1, end=2,
epochs=1, images=1, for every training oracle, evaluation oracle and
config. -/
theorem find_best_stddev_never_completes
    (fit : CompiledModel → ℕ → ℕ → Except PyError Unit)
    (ev : CompiledModel → ℕ → ℚ × ℚ) (c : Config) :
    find_best_stddev fit ev 1 2 1 1 c =
      Except.error (PyError.typeError "get_model() got an unexpected keyword argument") :=
  rfl

/-- C2: the sweep never constructs a model seeded with the candidate
standard deviation: get_model's parameter list contains no staddev keyword,
so the call get_model(staddev=stddev, gaussian=True) in the inner loop
raises TypeError.  Shown at the source's default arguments start=1, end=20,
epochs=100, images=16, for every training and evaluation oracle. -/
theorem sweep_model_construction_rejected :
    get_model_params.contains "staddev" = false ∧
    ∀ (fit : CompiledModel → ℕ → ℕ → Except PyError Unit)
      (ev : CompiledModel → ℕ → ℚ × ℚ),
      find_best_stddev fit ev 1 20 100 16 hyperparameter_defaults =
        Except.error (PyError.typeError "get_model() got an unexpected keyword argument") :=
  ⟨rfl, fun _ _ => rfl⟩

/-- C8: no training call can ever fail inside the sweep, because no training
call is ever reached: the sweep's result is the same TypeError for every
behavior of the external training and evaluation oracles, shown at start=2,
end=3, epochs=5, images=1. -/
theorem sweep_error_propagation_unreachable
    (fit₁ fit₂ : CompiledModel → ℕ → ℕ → Except PyError Unit)
    (ev₁ ev₂ : CompiledModel → ℕ → ℚ × ℚ) (c : Config) :
    find_best_stddev fit₁ ev₁ 2 3 5 1 c = find_best_stddev fit₂ ev₂ 2 3 5 1 c ∧
    find_best_stddev fit₁ ev₁ 2 3 5 1 c =
      Except.error (PyError.typeError "get_model() got an unexpected keyword argument") :=
  ⟨rfl, rfl⟩

/-- C10: find_best_stddev completes on no input at all.  With end < start
(here 1, 0) the final selection indexes an empty candidate list and raises
IndexError; with images = 0 and start less than or equal to end (here 1, 4)
the per-candidate average divides by zero; and even when both preconditions
images >= 1 and end >= start hold (here 1, 1, 1, 1) the call raises
TypeError from the get_model keyword mismatch. -/
theorem find_best_stddev_precondition_failures :
    find_best_stddev fit0 oracle0 1 0 7 3 hyperparameter_defaults =
      Except.error PyError.indexError ∧
    find_best_stddev fit0 oracle0 1 4 7 0 hyperparameter_defaults =
      Except.error PyError.zeroDivisionError ∧
    find_best_stddev fit0 oracle0 1 1 1 1 hyperparameter_defaults =
      Except.error (PyError.typeError "get_model() got an unexpected keyword argument") :=
  ⟨rfl, rfl, rfl⟩

/-- C9: for every evaluation oracle, model, image index, and every setting
of the show_output and save_output flags, test_model returns the pair of
train and test PSNR values computed by the external framework and logs
exactly that pair to the experiment tracker; the flags do not enter the
returned values or the log. -/
theorem test_model_logs_and_returns (ev : CompiledModel → ℕ → ℚ × ℚ)
    (model : CompiledModel) (i : ℕ) (show_output save_output : Bool) :
    (test_model ev model i show_output save_output).psnr_train = (ev model i).1 ∧
    (test_model ev model i show_output save_output).psnr_test = (ev model i).2 ∧
    (test_model ev model i show_output save_output).logged =
      [("Train PSNR Value", (ev model i).1), ("Test PSNR Value", (ev model i).2)] :=
  ⟨rfl, rfl, rfl⟩

/-- C4: the Basic FFM is pure, stateless and deterministic: calling a layer
leaves it unchanged, a second call on the same input yields the identical
output, and any two layer instances agree on every input. -/
theorem basicFFM_pure_deterministic (l₁ l₂ : BasicFFM) (x : List (List ℝ)) :
    ((l₁.call x).2.call x).1 = (l₁.call x).1 ∧
    ((l₁.call x).2.call x).2 = l₁ ∧
    (l₁.call x).1 = (l₂.call x).1 :=
  ⟨rfl, rfl, rfl⟩

/-- C6: the Gaussian FFM's projection matrix is fixed after construction:
a call leaves the layer, and in particular its matrix B, unchanged, and two
successive calls on the same input yield identical output. -/
theorem gaussianFFM_fixed_after_construction (layer : GaussianFFM)
    (x : List (List ℝ)) :
    ((layer.call x).2).B = layer.B ∧
    (layer.call x).2 = layer ∧
    (((layer.call x).2).call x).1 = (layer.call x).1 :=
  ⟨rfl, rfl, rfl⟩

/-- C7: the sweep's steps share no observable mutable state: get_model and
train_model mutate only the config fields gaussian and epochs, and their
observable outputs (the constructed model and the arguments handed to the
external fit call) are independent of the incoming values of exactly those
fields, so no sweep step's mutation is observed by a later get_model or
train_model call.  The sweep itself is a sequential fold, one model at a
time. -/
theorem sweep_steps_no_observable_mutation
    (fit : CompiledModel → ℕ → ℕ → Except PyError Unit) (g : Bool)
    (m : CompiledModel) (i e : ℕ) (c₁ c₂ : Config)
    (h : Config.core c₁ = Config.core c₂) :
    (get_model g c₁).1 = (get_model g c₂).1 ∧
    (get_model g c₁).2 = { c₁ with gaussian := g } ∧
    (train_model fit m i e c₁).map Prod.fst = (train_model fit m i e c₂).map Prod.fst ∧
    train_model fit m i e c₁ =
      (fit m i e).map
        (fun _ => ({ model := m, image_index := i, epochs := e },
                   { c₁ with epochs := e })) := by
  simp only [Config.core, Prod.ext_iff] at h
  obtain ⟨h1, h2, h3, h4, h5, h6, h7, h8, h9⟩ := h
  refine ⟨?_, rfl, ?_, rfl⟩
  · simp [get_model, h1, h2, h3, h4, h5, h6, h7, h8, h9]
  · cases hf : fit m i e <;> simp [train_model, hf, Except.map]

/-- Witness for C7 at concrete configs differing exactly on the mutated
fields gaussian and epochs. -/
theorem sweep_steps_no_observable_mutation_witness :
    Config.core hyperparameter_defaults = Config.core config_alt ∧
    ((get_model true hyperparameter_defaults).1 = (get_model true config_alt).1 ∧
     (get_model true hyperparameter_defaults).2 =
       { hyperparameter_defaults with gaussian := true } ∧
     (train_model fit0 model0 0 7 hyperparameter_defaults).map Prod.fst =
       (train_model fit0 model0 0 7 config_alt).map Prod.fst ∧
     train_model fit0 model0 0 7 hyperparameter_defaults =
       (fit0 model0 0 7).map
         (fun _ => ({ model := model0, image_index := 0, epochs := 7 },
                    { hyperparameter_defaults with epochs := 7 }))) :=
  ⟨rfl, sweep_steps_no_observable_mutation fit0 true model0 0 7
    hyperparameter_defaults config_alt rfl⟩

/-- C3: on an input batch of rows of width d, the Basic FFM yields one row
per input row, each of width 2d, whose entry j (for j below d) is the sine
of 2 pi times input entry j and whose entry d + j is the cosine of 2 pi
times input entry j: sine and cosine of 2 pi times the raw coordinates,
concatenated along the feature axis. -/
theorem basicFFM_contract (x : List (List ℝ)) (d : ℕ)
    (h : ∀ r ∈ x, r.length = d) :
    (basicFFM x).length = x.length ∧
    (∀ r ∈ basicFFM x, r.length = 2 * d) ∧
    ∀ i j, i < x.length → j < d →
      ((basicFFM x).getD i []).getD j 0 =
        Real.sin (2 * Real.pi * (x.getD i []).getD j 0) ∧
      ((basicFFM x).getD i []).getD (d + j) 0 =
        Real.cos (2 * Real.pi * (x.getD i []).getD j 0) := by
  refine ⟨by simp [basicFFM], ?_, ?_⟩
  · intro r hr
    simp only [basicFFM, List.mem_map] at hr
    obtain ⟨a, ha, rfl⟩ := hr
    simp [h a ha, two_mul]
  · intro i j hi hj
    have hrow : (basicFFM x).getD i [] =
        ((x.getD i []).map fun v => Real.sin (2 * Real.pi * v)) ++
        ((x.getD i []).map fun v => Real.cos (2 * Real.pi * v)) := by
      simp only [basicFFM]
      exact getD_map_of_lt _ x i hi [] []
    have hlen : (x.getD i []).length = d := h _ (getD_mem_of_lt x i hi [])
    constructor
    · rw [hrow, getD_append_of_lt _ _ _ (by rw [List.length_map, hlen]; exact hj),
        getD_map_of_lt _ _ _ (by rw [hlen]; exact hj) 0 0]
    · rw [hrow]
      have hidx : d + j =
          ((x.getD i []).map fun v => Real.sin (2 * Real.pi * v)).length + j := by
        rw [List.length_map, hlen]
      rw [hidx, getD_append_right_len,
        getD_map_of_lt _ _ _ (by rw [hlen]; exact hj) 0 0]

/-- Witness for C3 at the test input of `test_basic_FFM`: a batch of 500
two-dimensional points, whose Basic FFM output has shape (500, 4). -/
theorem basicFFM_contract_witness :
    (∀ r ∈ List.replicate 500 ([0, 0] : List ℝ), r.length = 2) ∧
    (basicFFM (List.replicate 500 ([0, 0] : List ℝ))).length = 500 ∧
    ∀ r ∈ basicFFM (List.replicate 500 ([0, 0] : List ℝ)), r.length = 4 := by
  have h : ∀ r ∈ List.replicate 500 ([0, 0] : List ℝ), r.length = 2 := by
    intro r hr
    rw [List.eq_of_mem_replicate hr]
    rfl
  obtain ⟨h1, h2, _⟩ := basicFFM_contract (List.replicate 500 ([0, 0] : List ℝ)) 2 h
  refine ⟨h, by rw [h1]; simp only [List.length_replicate], ?_⟩
  intro r hr
  have := h2 r hr
  simpa using this

/-- C5: for a Gaussian FFM whose projection matrix B has shape (d, m) with
m output units, and an input batch of rows of width d, calling the layer
yields one row per input row, each of width 2m, whose entry k (for k below
m) is the sine of 2 pi times the projection of the input row onto column k
of B, and whose entry m + k is the corresponding cosine. -/
theorem gaussianFFM_contract (layer : GaussianFFM) (x : List (List ℝ))
    (batch d m : ℕ) (hB : layer.B.length = d)
    (hBr : ∀ r ∈ layer.B, r.length = m) (hm : layer.num_units = m)
    (hx : x.length = batch) (hxr : ∀ r ∈ x, r.length = d) :
    ((layer.call x).1).length = batch ∧
    (∀ r ∈ (layer.call x).1, r.length = 2 * m) ∧
    ∀ i k, i < batch → k < m →
      (((layer.call x).1).getD i []).getD k 0 =
        Real.sin (2 * Real.pi * dotCol (x.getD i []) layer.B k) ∧
      (((layer.call x).1).getD i []).getD (m + k) 0 =
        Real.cos (2 * Real.pi * dotCol (x.getD i []) layer.B k) := by
  subst hx
  subst hm
  refine ⟨by simp [GaussianFFM.call], ?_, ?_⟩
  · intro r hr
    simp only [GaussianFFM.call, List.mem_map] at hr
    obtain ⟨a, ha, rfl⟩ := hr
    simp [two_mul]
  · intro i k hi hk
    have hrow : ((layer.call x).1).getD i [] =
        (((List.range layer.num_units).map fun q =>
            dotCol (x.getD i []) layer.B q).map
          fun v => Real.sin (2 * Real.pi * v)) ++
        (((List.range layer.num_units).map fun q =>
            dotCol (x.getD i []) layer.B q).map
          fun v => Real.cos (2 * Real.pi * v)) := by
      simp only [GaussianFFM.call]
      exact getD_map_of_lt _ x i hi [] []
    constructor
    · rw [hrow, getD_append_of_lt _ _ _ (by simpa using hk),
        getD_map_of_lt _ _ _ (by simpa using hk) 0 0,
        getD_map_of_lt _ _ _ (by simpa using hk) 0 0,
        getD_range_of_lt _ _ hk]
    · rw [hrow]
      have hidx : layer.num_units + k =
          (((List.range layer.num_units).map fun q =>
              dotCol (x.getD i []) layer.B q).map
            fun v => Real.sin (2 * Real.pi * v)).length + k := by
        simp
      rw [hidx, getD_append_right_len,
        getD_map_of_lt _ _ _ (by simpa using hk) 0 0,
        getD_map_of_lt _ _ _ (by simpa using hk) 0 0,
        getD_range_of_lt _ _ hk]

/-- Witness for C5 at the test configuration of `test_gaussian_FFM`: a
batch of 500 two-dimensional points through a Gaussian FFM with 126 output
units yields output of shape (500, 252). -/
theorem gaussianFFM_contract_witness :
    (B0.length = 2 ∧ (∀ r ∈ B0, r.length = 126) ∧ gffm0.num_units = 126 ∧
      x0.length = 500 ∧ (∀ r ∈ x0, r.length = 2)) ∧
    (gffm0.call x0).1.length = 500 ∧
    ∀ r ∈ (gffm0.call x0).1, r.length = 252 := by
  have hB : gffm0.B.length = 2 := by
    simp only [gffm0, B0, List.length_replicate]
  have hBr : ∀ r ∈ gffm0.B, r.length = 126 := by
    intro r hr
    rw [List.eq_of_mem_replicate hr]
    simp only [List.length_replicate]
  have hx : x0.length = 500 := by
    simp only [x0, List.length_replicate]
  have hxr : ∀ r ∈ x0, r.length = 2 := by
    intro r hr
    rw [List.eq_of_mem_replicate hr]
    rfl
  obtain ⟨g1, g2, _⟩ :=
    gaussianFFM_contract gffm0 x0 500 2 126 hB hBr rfl hx hxr
  refine ⟨⟨hB, hBr, rfl, hx, hxr⟩, g1, ?_⟩
  intro r hr
  have := g2 r hr
  simpa using this

end FourierDnn
